import Mathlib

set_option maxRecDepth 8192

/-!
Verification of the todo-app repository: a CRUD service (`src/backend/server.js`)
over a single Postgres table `todos` (`src/backend/setup_db.js`), with a React
client (`App.tsx`). This file shallowly embeds the data model, the four HTTP
handlers and the client's list fetch, and proves the specified properties.
-/

namespace TodoApp

/-- A row of the `todos` table: `id SERIAL PRIMARY KEY`, `text VARCHAR(255) NOT NULL`,
`completed BOOLEAN DEFAULT FALSE` (setup_db.js, createTableQuery). -/
structure Todo where
  id : Nat
  text : String
  completed : Bool
deriving DecidableEq, Repr

/-- The database state: the multiset of rows (as a list, order irrelevant because
every read sorts by id) together with the next value of the `id` SERIAL sequence.
Postgres sequences start at 1 and never rewind, so deleted ids are never reused. -/
structure Db where
  rows : List Todo
  nextId : Nat
deriving DecidableEq, Repr

/-- The empty database right after `setup_db.js` ran: no rows, sequence at 1. -/
def initDb : Db := ⟨[], 1⟩

/-- A JSON/JavaScript value as it can appear in a request-body field after
`express.json()` parsing (server.js uses `req.body.text`, `req.body.completed`). -/
inductive JVal where
  | undef
  | null
  | str (s : String)
  | num (n : Int)
  | bool (b : Bool)
  | obj
deriving DecidableEq, Repr

/-- JavaScript truthiness of a `JVal`, as tested by `!text` in server.js line 111. -/
def jsTruthy : JVal → Bool
  | .undef => false
  | .null => false
  | .str s => s != ""
  | .num n => n != 0
  | .bool b => b
  | .obj => true

/-- A JavaScript exception escaping a handler (server.js has no catch around the
validation code before the `try` block). -/
inductive JsError where
  | typeError
deriving DecidableEq, Repr

/-- Body of an HTTP response produced by server.js: a row list ( `res.json(result.rows)` ),
a single row, an `{error: ...}` payload, or a `{message: ...}` payload. -/
inductive RespBody where
  | todos (l : List Todo)
  | todo (t : Todo)
  | errMsg (e : String)
  | message (m : String)
deriving DecidableEq, Repr

/-- An HTTP response: status code plus JSON body. -/
structure Response where
  status : Nat
  body : RespBody
deriving DecidableEq, Repr

/-- Whitespace accepted by JavaScript `parseInt` before the number. -/
def jsIsSpace (c : Char) : Bool :=
  c == ' ' || c == '\t' || c == '\n' || c == '\r' || c == '\x0b' || c == '\x0c'

/-- JavaScript `String.prototype.trim` (used by the create validation at
server.js line 111): strip leading and trailing whitespace. -/
def jsTrim (s : String) : String :=
  String.mk (((s.toList.dropWhile jsIsSpace).reverse.dropWhile jsIsSpace).reverse)

/-- Longest prefix of decimal digits of a character list. -/
def leadingDigits : List Char → List Char
  | [] => []
  | c :: cs => if c.isDigit then c :: leadingDigits cs else []

/-- Numeric value of a list of decimal digit characters. -/
def digitsToNat (l : List Char) : Nat :=
  l.foldl (fun acc c => 10 * acc + (c.toNat - 48)) 0

/-- JavaScript `parseInt(s, 10)` (used at server.js lines 157 and 201): skip leading
whitespace, take an optional sign and then the longest prefix of decimal digits;
`none` models `NaN` (no digits at all), otherwise the signed value of that prefix.
Trailing characters are ignored. -/
def parseInt10 (s : String) : Option Int :=
  let cs := s.toList.dropWhile jsIsSpace
  let core : Int → List Char → Option Int := fun sign rest =>
    let ds := leadingDigits rest
    if ds.isEmpty then none else some (sign * (digitsToNat ds : Int))
  match cs with
  | '-' :: rest => core (-1) rest
  | '+' :: rest => core 1 rest
  | _ => core 1 cs

/-- GET /api/todos executes `SELECT * FROM todos ORDER BY id ASC`; `sortById` is the
`ORDER BY id ASC` part, realised as insertion sort over the row list. -/
def insertById (t : Todo) : List Todo → List Todo
  | [] => [t]
  | u :: us => if t.id ≤ u.id then t :: u :: us else u :: insertById t us

/-- Sort a row list by ascending id (the semantics of `ORDER BY id ASC`). -/
def sortById (l : List Todo) : List Todo := l.foldr insertById []

/-- Handler of GET /api/todos (server.js lines 77-100): select all rows ordered by
ascending id and answer 200 with them as JSON. -/
def getTodosHandler (db : Db) : Response :=
  ⟨200, .todos (sortById db.rows)⟩

/-- Handler of POST /api/todos (server.js lines 104-137). Validation mirrors
`if (!text || text.trim() === '')`: a falsy `text` or a whitespace-only string is
answered 400 before any store call; `text.trim()` on a truthy non-string throws a
TypeError that escapes the handler (it happens before the `try` block), modelled as
`Except.error`. Otherwise `INSERT INTO todos (text) VALUES ($1) RETURNING *` runs;
the column is `VARCHAR(255)` (setup_db.js), so a string longer than 255 characters
makes the insert fail and the catch block answers 500; otherwise the new row gets
the next sequence id, `completed` defaults to false, and the handler answers 201
with the inserted row. -/
def createTodoHandler (db : Db) (text : JVal) : Except JsError (Response × Db) :=
  if !(jsTruthy text) then
    .ok (⟨400, .errMsg "待办事项内容不能为空"⟩, db)
  else
    match text with
    | .str s =>
      if jsTrim s = "" then
        .ok (⟨400, .errMsg "待办事项内容不能为空"⟩, db)
      else if 255 < s.length then
        .ok (⟨500, .errMsg "服务器内部错误"⟩, db)
      else
        let todo : Todo := ⟨db.nextId, s, false⟩
        .ok (⟨201, .todo todo⟩, ⟨db.rows ++ [todo], db.nextId + 1⟩)
    | _ => .error .typeError

/-- The effect of `UPDATE todos SET completed = $1 WHERE id = $2` on one row. -/
def updateRow (i : Int) (c : Bool) (t : Todo) : Todo :=
  if (t.id : Int) = i then { t with completed := c } else t

/-- Handler of PUT /api/todos/:id (server.js lines 141-192). Checks, in source
order: `completed` must be a boolean (else 400), `parseInt(id, 10)` must not be
NaN (else 400); then `UPDATE ... WHERE id = $2 RETURNING *` runs: no matched row
gives 404, otherwise the handler answers 200 with the updated row
(`result.rows[0]`). -/
def putTodoHandler (db : Db) (idStr : String) (completed : JVal) : Response × Db :=
  match completed with
  | .bool c =>
    match parseInt10 idStr with
    | none => (⟨400, .errMsg "无效的待办事项 ID"⟩, db)
    | some i =>
      match (db.rows.filter (fun t => (t.id : Int) == i)).map
          (fun t => { t with completed := c }) with
      | [] => (⟨404, .errMsg "未找到指定的待办事项"⟩, db)
      | u :: _ => (⟨200, .todo u⟩, ⟨db.rows.map (updateRow i c), db.nextId⟩)
  | _ => (⟨400, .errMsg "completed 状态必须是布尔值"⟩, db)

/-- Handler of DELETE /api/todos/:id (server.js lines 196-230). `parseInt(id, 10)`
must not be NaN (else 400); then `DELETE FROM todos WHERE id = $1` runs: a zero
`rowCount` gives 404, otherwise 200 with an acknowledgement message. -/
def deleteTodoHandler (db : Db) (idStr : String) : Response × Db :=
  match parseInt10 idStr with
  | none => (⟨400, .errMsg "无效的待办事项 ID"⟩, db)
  | some i =>
    if ((db.rows.filter (fun t => (t.id : Int) == i)).length = 0) then
      (⟨404, .errMsg "未找到指定的待办事项"⟩, db)
    else
      (⟨200, .message "待办事项已删除"⟩, ⟨db.rows.filter (fun t => (t.id : Int) != i), db.nextId⟩)

/-- One client-visible mutation request against the API. -/
inductive Event where
  | createEv (text : JVal)
  | updateEv (idStr : String) (completed : JVal)
  | deleteEv (idStr : String)
  | listEv
deriving DecidableEq, Repr

/-- Database effect of one request: the state part of the corresponding handler
(a create whose validation throws leaves the database untouched). -/
def stepDb (db : Db) (e : Event) : Db :=
  match e with
  | .createEv t =>
    match createTodoHandler db t with
    | .ok p => p.2
    | .error _ => db
  | .updateEv idStr c => (putTodoHandler db idStr c).2
  | .deleteEv idStr => (deleteTodoHandler db idStr).2
  | .listEv => db

/-- Database reached from `db` after a sequence of requests. -/
def runFrom (db : Db) (es : List Event) : Db := es.foldl stepDb db

/-- Database reached from the freshly initialised database. -/
def runEvents (es : List Event) : Db := runFrom initDb es

/-! ## Client model (App.tsx) -/

/-- What the client's `axios.get('/api/todos')` can come back with: a resolved 2xx
response whose data is or is not an array, or a rejection (network failure or
non-2xx status make axios throw). -/
inductive FetchResult where
  | arrData (l : List Todo)
  | nonArrData
  | failure
deriving DecidableEq, Repr

/-- The client state touched by `fetchTodos`: the `todos` list and the `error`
message (App.tsx `useState`). -/
structure ClientState where
  todos : List Todo
  error : Option String
deriving DecidableEq, Repr

/-- The state transformation of `fetchTodos` (App.tsx lines 29-60): clear the
error, then on an array response replace the list; on a non-array response set a
format error and clear the list; on a rejected request set a load error and clear
the list. -/
def fetchTodosUpdate (r : FetchResult) (s : ClientState) : ClientState :=
  let cleared : ClientState := ⟨s.todos, none⟩
  match r with
  | .arrData l => ⟨l, cleared.error⟩
  | .nonArrData => ⟨[], some "从服务器获取的数据格式不正确。"⟩
  | .failure => ⟨[], some "无法加载待办事项，请检查后端服务或网络连接。"⟩

/-! ## Infrastructure lemmas -/

/-- Invariant of every reachable database: every row id is below the value of the
`SERIAL` sequence. -/
def wfDb (db : Db) : Prop := ∀ t ∈ db.rows, t.id < db.nextId

lemma updateRow_id (i : Int) (c : Bool) (t : Todo) : (updateRow i c t).id = t.id := by
  unfold updateRow; split <;> rfl

lemma updateRow_text (i : Int) (c : Bool) (t : Todo) : (updateRow i c t).text = t.text := by
  unfold updateRow; split <;> rfl

lemma createStep_eq_or (db : Db) (v : JVal) :
    stepDb db (.createEv v) = db ∨
    ∃ s : String, stepDb db (.createEv v) =
      ⟨db.rows ++ [⟨db.nextId, s, false⟩], db.nextId + 1⟩ := by
  cases v with
  | str s =>
    by_cases h0 : s = ""
    · subst h0; exact Or.inl (by simp [stepDb, createTodoHandler, jsTruthy])
    · by_cases h1 : jsTrim s = ""
      · exact Or.inl (by simp [stepDb, createTodoHandler, jsTruthy, h0, h1])
      · by_cases h2 : 255 < s.length
        · exact Or.inl (by simp [stepDb, createTodoHandler, jsTruthy, h0, h1, h2])
        · exact Or.inr ⟨s, by simp [stepDb, createTodoHandler, jsTruthy, h0, h1, h2]⟩
  | undef => exact Or.inl rfl
  | null => exact Or.inl rfl
  | obj => exact Or.inl rfl
  | bool b => cases b <;> exact Or.inl rfl
  | num n =>
    by_cases h : n = 0
    · subst h; exact Or.inl rfl
    · exact Or.inl (by simp [stepDb, createTodoHandler, jsTruthy, h])

lemma stepDb_spec (db : Db) (e : Event) :
    stepDb db e = db ∨
    (∃ s : String, stepDb db e = ⟨db.rows ++ [⟨db.nextId, s, false⟩], db.nextId + 1⟩) ∨
    (∃ i c, stepDb db e = ⟨db.rows.map (updateRow i c), db.nextId⟩) ∨
    (∃ i : Int, stepDb db e = ⟨db.rows.filter (fun t => (t.id : Int) != i), db.nextId⟩) := by
  cases e with
  | listEv => exact Or.inl rfl
  | createEv v =>
    rcases createStep_eq_or db v with h | h
    · exact Or.inl h
    · exact Or.inr (Or.inl h)
  | updateEv idStr v =>
    cases v with
    | bool c =>
      rcases hq : parseInt10 idStr with _ | i
      · exact Or.inl (by simp [stepDb, putTodoHandler, hq])
      · rcases hm : (db.rows.filter (fun t => (t.id : Int) == i)).map
            (fun t => { t with completed := c }) with _ | ⟨u, us⟩
        · exact Or.inl (by simp [stepDb, putTodoHandler, hq, hm])
        · exact Or.inr (Or.inr (Or.inl ⟨i, c, by simp [stepDb, putTodoHandler, hq, hm]⟩))
    | undef => exact Or.inl rfl
    | null => exact Or.inl rfl
    | str s => exact Or.inl rfl
    | num n => exact Or.inl rfl
    | obj => exact Or.inl rfl
  | deleteEv idStr =>
    rcases hq : parseInt10 idStr with _ | i
    · exact Or.inl (by simp [stepDb, deleteTodoHandler, hq])
    · by_cases hl : (db.rows.filter (fun t => (t.id : Int) == i)).length = 0
      · exact Or.inl (by simp [stepDb, deleteTodoHandler, hq, hl])
      · exact Or.inr (Or.inr (Or.inr ⟨i, by simp [stepDb, deleteTodoHandler, hq, hl]⟩))

lemma stepDb_nextId_le (db : Db) (e : Event) : db.nextId ≤ (stepDb db e).nextId := by
  rcases stepDb_spec db e with h | ⟨s, h⟩ | ⟨i, c, h⟩ | ⟨i, h⟩ <;> rw [h]
  exact Nat.le_succ _

lemma wf_stepDb {db : Db} (e : Event) (h : wfDb db) : wfDb (stepDb db e) := by
  rcases stepDb_spec db e with hs | ⟨s, hs⟩ | ⟨i, c, hs⟩ | ⟨i, hs⟩ <;> rw [hs]
  · exact h
  · intro t ht
    rcases List.mem_append.1 ht with ht' | ht'
    · exact Nat.lt_succ_of_lt (h t ht')
    · simp only [List.mem_singleton] at ht'
      subst ht'
      exact Nat.lt_succ_self _
  · intro t ht
    rcases List.mem_map.1 ht with ⟨u, hu, rfl⟩
    rw [updateRow_id]
    exact h u hu
  · intro t ht
    exact h t (List.mem_of_mem_filter ht)

lemma absent_stepDb {db : Db} {i : Int} (e : Event) (_hwf : wfDb db)
    (habs : ∀ t ∈ db.rows, (t.id : Int) ≠ i) (hlt : i < (db.nextId : Int)) :
    ∀ t ∈ (stepDb db e).rows, (t.id : Int) ≠ i := by
  rcases stepDb_spec db e with hs | ⟨s, hs⟩ | ⟨j, c, hs⟩ | ⟨j, hs⟩ <;> rw [hs]
  · exact habs
  · intro t ht
    rcases List.mem_append.1 ht with ht' | ht'
    · exact habs t ht'
    · simp only [List.mem_singleton] at ht'
      subst ht'
      exact fun he => absurd (he ▸ hlt) (lt_irrefl _)
  · intro t ht
    rcases List.mem_map.1 ht with ⟨u, hu, rfl⟩
    rw [updateRow_id]
    exact habs u hu
  · intro t ht
    exact habs t (List.mem_of_mem_filter ht)

lemma runFrom_cons (db : Db) (e : Event) (es : List Event) :
    runFrom db (e :: es) = runFrom (stepDb db e) es := rfl

lemma runFrom_nextId_le (db : Db) (es : List Event) :
    db.nextId ≤ (runFrom db es).nextId := by
  induction es generalizing db with
  | nil => exact Nat.le_refl _
  | cons e es ih => exact Nat.le_trans (stepDb_nextId_le db e) (ih (stepDb db e))

lemma wf_runFrom {db : Db} (es : List Event) (h : wfDb db) : wfDb (runFrom db es) := by
  induction es generalizing db with
  | nil => exact h
  | cons e es ih => exact ih (wf_stepDb e h)

lemma wf_initDb : wfDb initDb := by
  intro t ht
  simp [initDb] at ht

lemma wf_runEvents (es : List Event) : wfDb (runEvents es) :=
  wf_runFrom es wf_initDb

lemma absent_runFrom {db : Db} {i : Int} (es : List Event) (hwf : wfDb db)
    (habs : ∀ t ∈ db.rows, (t.id : Int) ≠ i) (hlt : i < (db.nextId : Int)) :
    ∀ t ∈ (runFrom db es).rows, (t.id : Int) ≠ i := by
  induction es generalizing db with
  | nil => exact habs
  | cons e es ih =>
    exact ih (wf_stepDb e hwf) (absent_stepDb e hwf habs hlt)
      (lt_of_lt_of_le hlt (by exact_mod_cast stepDb_nextId_le db e))

/-! ### Lemmas about `ORDER BY id ASC` (insertion sort) -/

lemma length_insertById (t : Todo) (l : List Todo) :
    (insertById t l).length = l.length + 1 := by
  induction l with
  | nil => rfl
  | cons u us ih =>
    unfold insertById
    split
    · rfl
    · simpa using ih

lemma length_sortById (l : List Todo) : (sortById l).length = l.length := by
  induction l with
  | nil => rfl
  | cons u us ih =>
    show (insertById u (sortById us)).length = us.length + 1
    rw [length_insertById, ih]

lemma mem_insertById {u t : Todo} {l : List Todo} :
    u ∈ insertById t l ↔ u = t ∨ u ∈ l := by
  induction l with
  | nil => simp [insertById]
  | cons a as ih =>
    unfold insertById
    split
    · simp [List.mem_cons]
    · simp only [List.mem_cons, ih]
      tauto

lemma mem_sortById {u : Todo} {l : List Todo} : u ∈ sortById l ↔ u ∈ l := by
  induction l with
  | nil => simp [sortById]
  | cons a as ih =>
    show u ∈ insertById a (sortById as) ↔ _
    rw [mem_insertById, ih]
    simp [List.mem_cons]

lemma pairwise_insertById {t : Todo} {l : List Todo}
    (h : l.Pairwise (fun a b => a.id ≤ b.id)) :
    (insertById t l).Pairwise (fun a b => a.id ≤ b.id) := by
  induction l with
  | nil => simp [insertById]
  | cons a as ih =>
    rcases List.pairwise_cons.1 h with ⟨ha, has⟩
    unfold insertById
    split
    · refine List.pairwise_cons.2 ⟨?_, h⟩
      intro b hb
      rcases List.mem_cons.1 hb with rfl | hb'
      · assumption
      · exact Nat.le_trans (by assumption) (ha b hb')
    · refine List.pairwise_cons.2 ⟨?_, ih has⟩
      intro b hb
      rcases mem_insertById.1 hb with rfl | hb'
      · exact Nat.le_of_not_le (by assumption)
      · exact ha b hb'

lemma pairwise_sortById (l : List Todo) :
    (sortById l).Pairwise (fun a b => a.id ≤ b.id) := by
  induction l with
  | nil => exact List.Pairwise.nil
  | cons a as ih => exact pairwise_insertById ih

/-! ### Lemmas about `WHERE id = $1` (filtering by a unique id) -/

lemma filter_eq_nil_of_absent {l : List Todo} {i : Int}
    (h : ∀ t ∈ l, (t.id : Int) ≠ i) :
    l.filter (fun t => (t.id : Int) == i) = [] := by
  rw [List.filter_eq_nil_iff]
  intro t ht
  simpa using h t ht

lemma filter_eq_singleton {l : List Todo} {t : Todo} {i : Int}
    (hnd : (l.map Todo.id).Nodup) (ht : t ∈ l) (hi : (t.id : Int) = i) :
    l.filter (fun u => (u.id : Int) == i) = [t] := by
  induction l with
  | nil => cases ht
  | cons a as ih =>
    have hmap : ((a :: as).map Todo.id) = a.id :: as.map Todo.id := rfl
    rw [hmap, List.nodup_cons] at hnd
    rcases List.mem_cons.1 ht with rfl | hts
    · rw [List.filter_cons_of_pos (by simpa using hi)]
      have habs : ∀ u ∈ as, (u.id : Int) ≠ i := by
        intro u hu he
        exact hnd.1 (List.mem_map.2 ⟨u, hu, by exact_mod_cast he.trans hi.symm⟩)
      rw [filter_eq_nil_of_absent habs]
    · have hne : (a.id : Int) ≠ i := by
        intro he
        exact hnd.1 (List.mem_map.2 ⟨t, hts, by exact_mod_cast hi.trans he.symm⟩)
      rw [List.filter_cons_of_neg (by simpa using hne)]
      exact ih hnd.2 hts

lemma eq_of_mem_of_nodup_ids {l : List Todo} (hnd : (l.map Todo.id).Nodup)
    {t u : Todo} (ht : t ∈ l) (hu : u ∈ l) (h : u.id = t.id) : u = t :=
  List.inj_on_of_nodup_map hnd hu ht h

lemma map_eq_self_of_fixed {l : List Todo} {f : Todo → Todo}
    (h : ∀ u ∈ l, f u = u) : l.map f = l := by
  induction l with
  | nil => rfl
  | cons a as ih =>
    rw [List.map_cons, h a (List.mem_cons_self a as), ih]
    intro u hu
    exact h u (List.mem_cons_of_mem a hu)

lemma forall₂_map_self {l : List Todo} {f : Todo → Todo} {r : Todo → Todo → Prop}
    (h : ∀ a ∈ l, r a (f a)) : List.Forall₂ r l (l.map f) := by
  induction l with
  | nil => exact List.Forall₂.nil
  | cons a as ih =>
    exact List.Forall₂.cons (h a (List.mem_cons_self a as))
      (ih (fun u hu => h u (List.mem_cons_of_mem a hu)))

/-! ### Branch characterisations of the handlers -/

lemma createTodoHandler_valid (db : Db) (s : String) (h1 : jsTrim s ≠ "")
    (h2 : s.length ≤ 255) :
    createTodoHandler db (.str s) =
      .ok (⟨201, .todo ⟨db.nextId, s, false⟩⟩,
           ⟨db.rows ++ [⟨db.nextId, s, false⟩], db.nextId + 1⟩) := by
  have h0 : s ≠ "" := by
    intro he
    rw [he] at h1
    exact h1 (by decide)
  simp [createTodoHandler, jsTruthy, h0, h1, Nat.not_lt.2 h2]

lemma createStep_valid (db : Db) (s : String) (h1 : jsTrim s ≠ "") (h2 : s.length ≤ 255) :
    stepDb db (.createEv (.str s)) =
      ⟨db.rows ++ [⟨db.nextId, s, false⟩], db.nextId + 1⟩ := by
  simp [stepDb, createTodoHandler_valid db s h1 h2]

lemma putTodoHandler_not_bool (db : Db) (idStr : String) (v : JVal)
    (hv : ∀ b, v ≠ .bool b) :
    putTodoHandler db idStr v = (⟨400, .errMsg "completed 状态必须是布尔值"⟩, db) := by
  cases v with
  | bool b => exact absurd rfl (hv b)
  | undef => rfl
  | null => rfl
  | str s => rfl
  | num n => rfl
  | obj => rfl

lemma putTodoHandler_bad_id (db : Db) (idStr : String) (c : Bool)
    (hp : parseInt10 idStr = none) :
    putTodoHandler db idStr (.bool c) = (⟨400, .errMsg "无效的待办事项 ID"⟩, db) := by
  simp [putTodoHandler, hp]

lemma putTodoHandler_unmatched (db : Db) (idStr : String) (c : Bool) (i : Int)
    (hp : parseInt10 idStr = some i) (habs : ∀ t ∈ db.rows, (t.id : Int) ≠ i) :
    putTodoHandler db idStr (.bool c) = (⟨404, .errMsg "未找到指定的待办事项"⟩, db) := by
  simp [putTodoHandler, hp, filter_eq_nil_of_absent habs]

lemma putTodoHandler_matched (db : Db) (idStr : String) (c : Bool) (i : Int) (t : Todo)
    (hp : parseInt10 idStr = some i) (hnd : (db.rows.map Todo.id).Nodup)
    (ht : t ∈ db.rows) (hi : (t.id : Int) = i) :
    putTodoHandler db idStr (.bool c) =
      (⟨200, .todo { t with completed := c }⟩,
       ⟨db.rows.map (updateRow i c), db.nextId⟩) := by
  simp [putTodoHandler, hp, filter_eq_singleton hnd ht hi]

lemma deleteTodoHandler_bad_id (db : Db) (idStr : String)
    (hp : parseInt10 idStr = none) :
    deleteTodoHandler db idStr = (⟨400, .errMsg "无效的待办事项 ID"⟩, db) := by
  simp [deleteTodoHandler, hp]

lemma deleteTodoHandler_unmatched (db : Db) (idStr : String) (i : Int)
    (hp : parseInt10 idStr = some i) (habs : ∀ t ∈ db.rows, (t.id : Int) ≠ i) :
    deleteTodoHandler db idStr = (⟨404, .errMsg "未找到指定的待办事项"⟩, db) := by
  simp [deleteTodoHandler, hp, filter_eq_nil_of_absent habs]

lemma deleteTodoHandler_matched (db : Db) (idStr : String) (i : Int) (t : Todo)
    (hp : parseInt10 idStr = some i) (ht : t ∈ db.rows) (hi : (t.id : Int) = i) :
    deleteTodoHandler db idStr =
      (⟨200, .message "待办事项已删除"⟩,
       ⟨db.rows.filter (fun u => (u.id : Int) != i), db.nextId⟩) := by
  have hmem : t ∈ db.rows.filter (fun u => (u.id : Int) == i) :=
    List.mem_filter.2 ⟨ht, by simpa using hi⟩
  have hne : (db.rows.filter (fun u => (u.id : Int) == i)).length ≠ 0 := by
    intro h0
    rw [List.length_eq_zero] at h0
    rw [h0] at hmem
    cases hmem
  simp [deleteTodoHandler, hp, hne]

/-! ## Claim theorems -/

/-- C2: a create request whose `text` field is missing, empty, or whitespace-only
is answered 400 with an error payload and leaves the database unchanged — the
store is never reached, so no row is created. -/
theorem create_rejected_on_blank (db : Db) (v : JVal)
    (h : v = .undef ∨ ∃ s, v = .str s ∧ jsTrim s = "") :
    createTodoHandler db v = .ok (⟨400, .errMsg "待办事项内容不能为空"⟩, db) := by
  rcases h with rfl | ⟨s, rfl, hs⟩
  · rfl
  · by_cases h0 : s = ""
    · subst h0; rfl
    · simp [createTodoHandler, jsTruthy, h0, hs]

/-- Witness for C2 at the whitespace-only text `"   "` on the empty database. -/
theorem create_rejected_on_blank_witness :
    createTodoHandler initDb (.str "   ") =
      .ok (⟨400, .errMsg "待办事项内容不能为空"⟩, initDb) :=
  create_rejected_on_blank initDb (.str "   ") (Or.inr ⟨"   ", rfl, by decide⟩)

/-- C10: the create validation is not total over non-string bodies — a truthy
non-string `text` (the number 5, an object) makes `text.trim()` throw a TypeError
outside the handler's try block, so the endpoint produces neither the 400 nor the
500 response: no response at all (modelled as `Except.error`). -/
theorem create_validation_throws (db : Db) :
    jsTruthy (.num 5) = true ∧
    createTodoHandler db (.num 5) = .error .typeError ∧
    createTodoHandler db .obj = .error .typeError ∧
    ∀ p : Response × Db, createTodoHandler db (.num 5) ≠ .ok p := by
  refine ⟨rfl, rfl, rfl, ?_⟩
  intro p h
  simp [createTodoHandler, jsTruthy] at h

/-- C8: the client's list fetch replaces the local list exactly when the response
data is shaped as an array; a non-array response or a failed request sets an error
message and clears the list, so no stale items remain rendered. -/
theorem fetch_replaces_iff_array (r : FetchResult) (s : ClientState) :
    (∀ l, r = .arrData l → fetchTodosUpdate r s = ⟨l, none⟩) ∧
    (r = .nonArrData →
      fetchTodosUpdate r s = ⟨[], some "从服务器获取的数据格式不正确。"⟩) ∧
    (r = .failure →
      fetchTodosUpdate r s = ⟨[], some "无法加载待办事项，请检查后端服务或网络连接。"⟩) ∧
    ((∀ l, r ≠ .arrData l) → (fetchTodosUpdate r s).todos = []) := by
  refine ⟨?_, ?_, ?_, ?_⟩
  · rintro l rfl; rfl
  · rintro rfl; rfl
  · rintro rfl; rfl
  · intro h
    cases r with
    | arrData l => exact absurd rfl (h l)
    | nonArrData => rfl
    | failure => rfl

/-- Witness for C8: a failed fetch on a client that was showing one item clears
the list and sets the load-error message. -/
theorem fetch_replaces_iff_array_witness :
    fetchTodosUpdate .failure ⟨[⟨1, "a", false⟩], none⟩ =
      ⟨[], some "无法加载待办事项，请检查后端服务或网络连接。"⟩ :=
  (fetch_replaces_iff_array .failure ⟨[⟨1, "a", false⟩], none⟩).2.2.1 rfl

/-- C6: PUT validation — a non-integer path id gives a 400 with no state change;
a non-boolean `completed` gives a 400 with no state change; with both valid, an
unmatched id gives 404 with an error payload and a matched id gives 200 with the
updated Todo. -/
theorem put_validation (db : Db) (idStr : String) (v : JVal) :
    (parseInt10 idStr = none →
      (putTodoHandler db idStr v).1.status = 400 ∧ (putTodoHandler db idStr v).2 = db) ∧
    ((∀ b, v ≠ .bool b) →
      putTodoHandler db idStr v = (⟨400, .errMsg "completed 状态必须是布尔值"⟩, db)) ∧
    ∀ i c, parseInt10 idStr = some i → v = .bool c →
      ((∀ t ∈ db.rows, (t.id : Int) ≠ i) →
        putTodoHandler db idStr v = (⟨404, .errMsg "未找到指定的待办事项"⟩, db)) ∧
      ∀ t, (db.rows.map Todo.id).Nodup → t ∈ db.rows → (t.id : Int) = i →
        putTodoHandler db idStr v =
          (⟨200, .todo { t with completed := c }⟩,
           ⟨db.rows.map (updateRow i c), db.nextId⟩) := by
  refine ⟨?_, ?_, ?_⟩
  · intro hp
    cases v with
    | bool c =>
      rw [putTodoHandler_bad_id db idStr c hp]
      exact ⟨rfl, rfl⟩
    | undef => exact ⟨rfl, rfl⟩
    | null => exact ⟨rfl, rfl⟩
    | str s => exact ⟨rfl, rfl⟩
    | num n => exact ⟨rfl, rfl⟩
    | obj => exact ⟨rfl, rfl⟩
  · intro hv
    exact putTodoHandler_not_bool db idStr v hv
  · rintro i c hp rfl
    exact ⟨fun habs => putTodoHandler_unmatched db idStr c i hp habs,
      fun t hnd ht hi => putTodoHandler_matched db idStr c i t hp hnd ht hi⟩

/-- Witness for C6 at a one-row database: toggling id 1 to true answers 200 with
the updated Todo. -/
theorem put_validation_witness :
    putTodoHandler ⟨[⟨1, "a", false⟩], 2⟩ "1" (.bool true) =
      (⟨200, .todo ⟨1, "a", true⟩⟩, ⟨[⟨1, "a", true⟩], 2⟩) := by
  have h := ((put_validation ⟨[⟨1, "a", false⟩], 2⟩ "1" (.bool true)).2.2 1 true
    (by decide) rfl).2 ⟨1, "a", false⟩ (by decide) (by decide) (by decide)
  exact h.trans (by decide)

/-- C7: frame property of the update endpoint — whatever the request, the id
sequence is untouched and rows change pairwise in place: each row keeps its id
and text, and its `completed` can change only when the request's path id parses
exactly to that row's id. Other rows are unchanged; text and id are immutable. -/
theorem put_frame (db : Db) (idStr : String) (v : JVal) :
    (putTodoHandler db idStr v).2.nextId = db.nextId ∧
    List.Forall₂ (fun a b => b.id = a.id ∧ b.text = a.text ∧
        (b.completed ≠ a.completed → parseInt10 idStr = some (a.id : Int)))
      db.rows (putTodoHandler db idStr v).2.rows := by
  have hsame : ∀ q : Todo → Prop, List.Forall₂ (fun a b => b.id = a.id ∧
      b.text = a.text ∧ (b.completed ≠ a.completed → q a)) db.rows db.rows :=
    fun q => List.forall₂_same.2 (fun a _ => ⟨rfl, rfl, fun h => absurd rfl h⟩)
  cases v with
  | bool c =>
    rcases hp : parseInt10 idStr with _ | i
    · rw [putTodoHandler_bad_id db idStr c hp]
      exact ⟨rfl, hsame _⟩
    · rcases hm : (db.rows.filter (fun t => (t.id : Int) == i)).map
          (fun t => { t with completed := c }) with _ | ⟨u, us⟩
      · have he : putTodoHandler db idStr (.bool c) =
            (⟨404, .errMsg "未找到指定的待办事项"⟩, db) := by
          simp [putTodoHandler, hp, hm]
        rw [he]
        exact ⟨rfl, hsame _⟩
      · have he : putTodoHandler db idStr (.bool c) =
            (⟨200, .todo u⟩, ⟨db.rows.map (updateRow i c), db.nextId⟩) := by
          simp [putTodoHandler, hp, hm]
        rw [he]
        refine ⟨rfl, forall₂_map_self ?_⟩
        intro a _
        refine ⟨updateRow_id i c a, updateRow_text i c a, ?_⟩
        by_cases hid : (a.id : Int) = i
        · intro _
          rw [hid]
        · rw [updateRow, if_neg hid]
          intro hc
          exact absurd rfl hc
  | undef => exact ⟨rfl, hsame _⟩
  | null => exact ⟨rfl, hsame _⟩
  | str s => exact ⟨rfl, hsame _⟩
  | num n => exact ⟨rfl, hsame _⟩
  | obj => exact ⟨rfl, hsame _⟩

lemma deleteTodoHandler_congr (db : Db) {s1 s2 : String}
    (h : parseInt10 s1 = parseInt10 s2) :
    deleteTodoHandler db s1 = deleteTodoHandler db s2 := by
  unfold deleteTodoHandler
  rw [h]

lemma putTodoHandler_congr (db : Db) (v : JVal) {s1 s2 : String}
    (h : parseInt10 s1 = parseInt10 s2) :
    putTodoHandler db s1 v = putTodoHandler db s2 v := by
  unfold putTodoHandler
  rw [h]

/-- C9: the update and delete endpoints accept any path id string whose leading
characters parse as an integer — '1.9', '7abc', '1 ' all behave exactly as the
plain id — and answer 400 for a bad id only when `parseInt` yields NaN, i.e. when
there is no leading integer prefix at all. -/
theorem id_integer_prefix_behavior (db : Db) (c : Bool) :
    parseInt10 "1.9" = some 1 ∧ parseInt10 "7abc" = some 7 ∧ parseInt10 "1 " = some 1 ∧
    deleteTodoHandler db "1.9" = deleteTodoHandler db "1" ∧
    deleteTodoHandler db "7abc" = deleteTodoHandler db "7" ∧
    deleteTodoHandler db "1 " = deleteTodoHandler db "1" ∧
    putTodoHandler db "1.9" (.bool c) = putTodoHandler db "1" (.bool c) ∧
    putTodoHandler db "7abc" (.bool c) = putTodoHandler db "7" (.bool c) ∧
    (∀ idStr, parseInt10 idStr = none →
      deleteTodoHandler db idStr = (⟨400, .errMsg "无效的待办事项 ID"⟩, db) ∧
      putTodoHandler db idStr (.bool c) = (⟨400, .errMsg "无效的待办事项 ID"⟩, db)) ∧
    ∀ idStr i, parseInt10 idStr = some i →
      (deleteTodoHandler db idStr).1.status ≠ 400 ∧
      (putTodoHandler db idStr (.bool c)).1.status ≠ 400 := by
  refine ⟨by decide, by decide, by decide,
    deleteTodoHandler_congr db (by decide), deleteTodoHandler_congr db (by decide),
    deleteTodoHandler_congr db (by decide),
    putTodoHandler_congr db (.bool c) (by decide), putTodoHandler_congr db (.bool c) (by decide),
    fun idStr hp => ⟨deleteTodoHandler_bad_id db idStr hp, putTodoHandler_bad_id db idStr c hp⟩,
    ?_⟩
  intro idStr i hp
  constructor
  · by_cases hl : (db.rows.filter (fun t => (t.id : Int) == i)).length = 0
    · simp [deleteTodoHandler, hp, hl]
    · simp [deleteTodoHandler, hp, hl]
  · rcases hm : (db.rows.filter (fun t => (t.id : Int) == i)).map
        (fun t => { t with completed := c }) with _ | ⟨u, us⟩
    · simp [putTodoHandler, hp, hm]
    · simp [putTodoHandler, hp, hm]

/-- Witness for C9: on the empty database, '1.9' is treated as id 1 by delete,
'xyz' is a 400 bad id, and '5' is past validation (404, not 400). -/
theorem id_integer_prefix_behavior_witness :
    deleteTodoHandler initDb "1.9" = deleteTodoHandler initDb "1" ∧
    deleteTodoHandler initDb "xyz" = (⟨400, .errMsg "无效的待办事项 ID"⟩, initDb) ∧
    (deleteTodoHandler initDb "5").1.status ≠ 400 := by
  obtain ⟨_, _, _, h4, _, _, _, _, h9, h10⟩ := id_integer_prefix_behavior initDb true
  exact ⟨h4, (h9 "xyz" (by decide)).1, (h10 "5" 5 (by decide)).1⟩

lemma runCreates_rows_length (db : Db) (texts : List String)
    (hv : ∀ s ∈ texts, jsTrim s ≠ "" ∧ s.length ≤ 255) :
    (runFrom db (texts.map (fun s => Event.createEv (.str s)))).rows.length
      = db.rows.length + texts.length := by
  induction texts generalizing db with
  | nil => rfl
  | cons s ss ih =>
    have hs := hv s (List.mem_cons_self s ss)
    rw [List.map_cons, runFrom_cons, createStep_valid db s hs.1 hs.2,
      ih _ (fun u hu => hv u (List.mem_cons_of_mem s hu))]
    simp only [List.length_append, List.length_singleton, List.length_cons,
      List.length_nil]
    omega

/-- C5: the list endpoint always answers 200 and never null — its body is a
permutation of all persisted rows in ascending id order; it is empty on the fresh
database, and after N valid creates on the fresh database it holds exactly N
items, still in ascending id order. -/
theorem list_returns_all_sorted (db : Db) (texts : List String)
    (hv : ∀ s ∈ texts, jsTrim s ≠ "" ∧ s.length ≤ 255) :
    (∃ l, getTodosHandler db = ⟨200, .todos l⟩ ∧
      (∀ t, t ∈ l ↔ t ∈ db.rows) ∧ l.length = db.rows.length ∧
      l.Pairwise (fun a b => a.id ≤ b.id)) ∧
    getTodosHandler initDb = ⟨200, .todos []⟩ ∧
    ∃ l, getTodosHandler (runEvents (texts.map (fun s => Event.createEv (.str s))))
        = ⟨200, .todos l⟩ ∧
      l.length = texts.length ∧ l.Pairwise (fun a b => a.id ≤ b.id) := by
  refine ⟨⟨sortById db.rows, rfl, fun t => mem_sortById, length_sortById _,
    pairwise_sortById _⟩, rfl, sortById _, rfl, ?_, pairwise_sortById _⟩
  rw [length_sortById]
  have h := runCreates_rows_length initDb texts hv
  simpa [initDb] using h

/-- Witness for C5: after one valid create the list body has exactly one item. -/
theorem list_returns_all_sorted_witness :
    (∃ l, getTodosHandler initDb = ⟨200, .todos l⟩ ∧
      (∀ t, t ∈ l ↔ t ∈ initDb.rows) ∧ l.length = initDb.rows.length ∧
      l.Pairwise (fun a b => a.id ≤ b.id)) ∧
    getTodosHandler initDb = ⟨200, .todos []⟩ ∧
    ∃ l, getTodosHandler (runEvents (["a"].map (fun s => Event.createEv (.str s))))
        = ⟨200, .todos l⟩ ∧
      l.length = ["a"].length ∧ l.Pairwise (fun a b => a.id ≤ b.id) :=
  list_returns_all_sorted initDb ["a"] (by decide)

lemma map_id_map_updateRow (i : Int) (c : Bool) (l : List Todo) :
    (l.map (updateRow i c)).map Todo.id = l.map Todo.id := by
  induction l with
  | nil => rfl
  | cons a as ih => simp only [List.map_cons, ih, updateRow_id]

/-- C3: toggling a Todo's completion twice through the update endpoint (first
with the negation of its current value, then with the original value) returns
the row and the whole database to the original state; both responses are 200 and
the row's id and text never change. -/
theorem toggle_twice_roundtrip (db : Db) (t : Todo) (idStr : String)
    (hnd : (db.rows.map Todo.id).Nodup) (ht : t ∈ db.rows)
    (hp : parseInt10 idStr = some (t.id : Int)) :
    putTodoHandler db idStr (.bool (!t.completed)) =
      (⟨200, .todo { t with completed := !t.completed }⟩,
       ⟨db.rows.map (updateRow (t.id : Int) (!t.completed)), db.nextId⟩) ∧
    putTodoHandler ⟨db.rows.map (updateRow (t.id : Int) (!t.completed)), db.nextId⟩
        idStr (.bool t.completed) = (⟨200, .todo t⟩, db) := by
  constructor
  · exact putTodoHandler_matched db idStr (!t.completed) (t.id : Int) t hp hnd ht rfl
  · have hnd1 : (((⟨db.rows.map (updateRow (t.id : Int) (!t.completed)), db.nextId⟩ :
        Db).rows.map Todo.id)).Nodup := by
      show ((db.rows.map (updateRow (t.id : Int) (!t.completed))).map Todo.id).Nodup
      rw [map_id_map_updateRow]
      exact hnd
    have ht1 : ({ t with completed := !t.completed } : Todo) ∈
        (⟨db.rows.map (updateRow (t.id : Int) (!t.completed)), db.nextId⟩ : Db).rows := by
      show _ ∈ db.rows.map (updateRow (t.id : Int) (!t.completed))
      refine List.mem_map.2 ⟨t, ht, ?_⟩
      unfold updateRow
      rw [if_pos rfl]
    have h2 := putTodoHandler_matched
      ⟨db.rows.map (updateRow (t.id : Int) (!t.completed)), db.nextId⟩ idStr
      t.completed (t.id : Int) { t with completed := !t.completed } hp hnd1 ht1 rfl
    refine h2.trans ?_
    have hresp : ({ { t with completed := !t.completed } with
        completed := t.completed } : Todo) = t := by
      cases t
      rfl
    have hrows : (db.rows.map (updateRow (t.id : Int) (!t.completed))).map
        (updateRow (t.id : Int) t.completed) = db.rows := by
      rw [List.map_map]
      apply map_eq_self_of_fixed
      intro u hu
      by_cases hid : (u.id : Int) = (t.id : Int)
      · have hut : u = t := eq_of_mem_of_nodup_ids hnd ht hu (by exact_mod_cast hid)
        subst hut
        show updateRow _ _ (updateRow _ _ u) = u
        unfold updateRow
        rw [if_pos rfl]
        rw [if_pos rfl]
      · show updateRow _ _ (updateRow _ _ u) = u
        unfold updateRow
        rw [if_neg hid, if_neg hid]
    rw [hresp, hrows]

/-- Witness for C3 at a one-row database: toggling id 1 twice restores the
original row and database. -/
theorem toggle_twice_roundtrip_witness :
    putTodoHandler ⟨[⟨1, "b", false⟩], 2⟩ "1" (.bool true) =
      (⟨200, .todo ⟨1, "b", true⟩⟩, ⟨[⟨1, "b", true⟩], 2⟩) ∧
    putTodoHandler ⟨[⟨1, "b", true⟩], 2⟩ "1" (.bool false) =
      (⟨200, .todo ⟨1, "b", false⟩⟩, ⟨[⟨1, "b", false⟩], 2⟩) := by
  have h := toggle_twice_roundtrip ⟨[⟨1, "b", false⟩], 2⟩ ⟨1, "b", false⟩ "1"
    (by decide) (by decide) (by decide)
  exact ⟨h.1, h.2⟩

lemma runFrom_append (db : Db) (p rest : List Event) :
    runFrom db (p ++ rest) = runFrom (runFrom db p) rest := by
  unfold runFrom
  exact List.foldl_append stepDb db p rest

/-- C1 (amended with the `VARCHAR(255)` column bound): creating with a text whose
trim is nonempty and whose length is at most 255 characters answers 201 with a
Todo carrying exactly that text (untrimmed) and `completed = false`, whose id
differs from the id of every current row and of every row that existed at any
earlier point of the run — hence also from ids of previously deleted Todos,
since the sequence never rewinds. -/
theorem create_fresh_unique (es p : List Event) (t : String)
    (hpre : p <+: es) (h1 : jsTrim t ≠ "") (h2 : t.length ≤ 255) :
    ∃ todo db2,
      createTodoHandler (runEvents es) (.str t) = .ok (⟨201, .todo todo⟩, db2) ∧
      todo.text = t ∧ todo.completed = false ∧
      (∀ u ∈ (runEvents es).rows, todo.id ≠ u.id) ∧
      (∀ u ∈ (runEvents p).rows, todo.id ≠ u.id) := by
  refine ⟨⟨(runEvents es).nextId, t, false⟩, _,
    createTodoHandler_valid (runEvents es) t h1 h2, rfl, rfl, ?_, ?_⟩
  · intro u hu heq
    exact absurd (heq ▸ wf_runEvents es u hu) (lt_irrefl _)
  · intro u hu heq
    rcases hpre with ⟨rest, rfl⟩
    have heq2 : (runEvents (p ++ rest)).nextId = u.id := heq
    have h3 : u.id < (runEvents p).nextId := wf_runEvents p u hu
    have h4 : (runEvents p).nextId ≤ (runEvents (p ++ rest)).nextId := by
      unfold runEvents
      rw [runFrom_append]
      exact runFrom_nextId_le (runFrom initDb p) rest
    omega

/-- Witness for C1: on a run with one prior create and one delete, a fresh create
gets id 3, distinct from the deleted id 1 and from every current row id. -/
theorem create_fresh_unique_witness :
    ∃ todo db2,
      createTodoHandler
          (runEvents [Event.createEv (.str "a"), Event.createEv (.str "b"),
            Event.deleteEv "1"]) (.str "c") = .ok (⟨201, .todo todo⟩, db2) ∧
      todo.text = "c" ∧ todo.completed = false ∧
      (∀ u ∈ (runEvents [Event.createEv (.str "a"), Event.createEv (.str "b"),
        Event.deleteEv "1"]).rows, todo.id ≠ u.id) ∧
      (∀ u ∈ (runEvents [Event.createEv (.str "a")]).rows, todo.id ≠ u.id) :=
  create_fresh_unique
    [Event.createEv (.str "a"), Event.createEv (.str "b"), Event.deleteEv "1"]
    [Event.createEv (.str "a")] "c"
    ⟨[Event.createEv (.str "b"), Event.deleteEv "1"], rfl⟩ (by decide) (by decide)

/-- A 256-character text: one character beyond the `VARCHAR(255)` column bound. -/
def overlongText : String := String.mk (List.replicate 256 'a')

/-- Counterexample to C1 as frozen: `overlongText` has a nonempty trim, yet the
create endpoint answers 500 (the insert violates `VARCHAR(255)`) and no row is
created — not 201 with a Todo. -/
theorem create_fresh_unique_counterexample :
    jsTrim overlongText ≠ "" ∧
    createTodoHandler initDb (.str overlongText) =
      .ok (⟨500, .errMsg "服务器内部错误"⟩, initDb) := by
  constructor
  · decide
  · have ha : overlongText ≠ "" := by decide
    have hb : jsTrim overlongText ≠ "" := by decide
    have hc : 255 < overlongText.length := by decide
    simp [createTodoHandler, jsTruthy, ha, hb, hc]

/-- C4: on any reachable database, deleting an id with no matching row answers
404 with an error payload and changes nothing; deleting an existing id answers
200 with an acknowledgement and removes the row permanently — after any further
sequence of requests the id is absent from the rows, absent from every list
response, and both update and delete on it answer 404. -/
theorem delete_permanent (es : List Event) (idStr : String) (i : Int)
    (hp : parseInt10 idStr = some i) :
    ((∀ t ∈ (runEvents es).rows, (t.id : Int) ≠ i) →
      deleteTodoHandler (runEvents es) idStr =
        (⟨404, .errMsg "未找到指定的待办事项"⟩, runEvents es)) ∧
    ∀ t0, t0 ∈ (runEvents es).rows → (t0.id : Int) = i →
      (deleteTodoHandler (runEvents es) idStr).1 = ⟨200, .message "待办事项已删除"⟩ ∧
      ∀ es2 c,
        (∀ t ∈ (runFrom (deleteTodoHandler (runEvents es) idStr).2 es2).rows,
          (t.id : Int) ≠ i) ∧
        (∃ l, getTodosHandler (runFrom (deleteTodoHandler (runEvents es) idStr).2 es2)
            = ⟨200, .todos l⟩ ∧ ∀ t ∈ l, (t.id : Int) ≠ i) ∧
        (putTodoHandler (runFrom (deleteTodoHandler (runEvents es) idStr).2 es2) idStr
            (.bool c)).1 = ⟨404, .errMsg "未找到指定的待办事项"⟩ ∧
        (deleteTodoHandler (runFrom (deleteTodoHandler (runEvents es) idStr).2 es2)
            idStr).1 = ⟨404, .errMsg "未找到指定的待办事项"⟩ := by
  refine ⟨fun habs => deleteTodoHandler_unmatched (runEvents es) idStr i hp habs, ?_⟩
  intro t0 ht0 hi0
  have hwf := wf_runEvents es
  have hdel := deleteTodoHandler_matched (runEvents es) idStr i t0 hp ht0 hi0
  rw [hdel]
  refine ⟨rfl, ?_⟩
  intro es2 c
  have hwf2 : wfDb (⟨(runEvents es).rows.filter (fun u => (u.id : Int) != i),
      (runEvents es).nextId⟩ : Db) := by
    intro u hu
    exact hwf u (List.mem_of_mem_filter hu)
  have habs1 : ∀ u ∈ (⟨(runEvents es).rows.filter (fun u => (u.id : Int) != i),
      (runEvents es).nextId⟩ : Db).rows, (u.id : Int) ≠ i := by
    intro u hu
    have hb := (List.mem_filter.1 hu).2
    simpa using hb
  have hlt : i < (((⟨(runEvents es).rows.filter (fun u => (u.id : Int) != i),
      (runEvents es).nextId⟩ : Db).nextId : Int)) := by
    show i < ((runEvents es).nextId : Int)
    rw [← hi0]
    exact_mod_cast hwf t0 ht0
  have habs2 := absent_runFrom es2 hwf2 habs1 hlt
  refine ⟨habs2, ⟨sortById _, rfl, fun u hu => habs2 u (mem_sortById.1 hu)⟩, ?_, ?_⟩
  · rw [putTodoHandler_unmatched _ idStr c i hp habs2]
  · rw [deleteTodoHandler_unmatched _ idStr i hp habs2]

/-- Witness for C4: create "a" (id 1), delete id 1 — the delete answers 200, and
afterwards updating id 1 answers 404. -/
theorem delete_permanent_witness :
    (deleteTodoHandler (runEvents [Event.createEv (.str "a")]) "1").1
      = ⟨200, .message "待办事项已删除"⟩ ∧
    (putTodoHandler (runFrom (deleteTodoHandler
        (runEvents [Event.createEv (.str "a")]) "1").2 []) "1" (.bool true)).1
      = ⟨404, .errMsg "未找到指定的待办事项"⟩ := by
  have h := (delete_permanent [Event.createEv (.str "a")] "1" 1 (by decide)).2
    ⟨1, "a", false⟩ (by decide) (by decide)
  exact ⟨h.1, ((h.2 [] true).2.2.1)⟩

end TodoApp
